import Mathlib

/-!
Verification of the soft-delete persistence adapter and the
authentication/session handlers of a MERN-style backend.

The inventory persistence adapter is embedded from
`src/routes/v1/inventories/service.js`; the user request handlers from
`src/routes/v1/users/controller.js`.  MongoDB/Mongoose collections are
modelled as lists of records; `findByIdAndUpdate` patches the first
record whose `_id` matches and returns the pre-update document (the
source does not pass `new: true` to the soft-delete/restore calls);
`findByIdAndDelete` removes the first matching record and returns it.
-/

namespace Spec2Proof

/-- An inventory record: identity, arbitrary business fields (abstracted
as a single string), and the soft-delete flag, as in the Mongoose model
used by `inventories/service.js`. -/
structure InvRecord where
  _id : Nat
  fields : String
  deleted : Bool
deriving DecidableEq, Repr

/-- The collection backing the inventory service. -/
abbrev InvDb := List InvRecord

/-- `model.find ( \x7b deleted: false \x7d )` — `getAll` from
`inventories/service.js` line 3. -/
def getAll (db : InvDb) : List InvRecord :=
  db.filter (fun r => r.deleted == false)

/-- `model.find ( \x7b deleted: true \x7d )` — `getAllDeleted`, line 7. -/
def getAllDeleted (db : InvDb) : List InvRecord :=
  db.filter (fun r => r.deleted == true)

/-- `model.findOne ( \x7b _id, deleted: false \x7d )` — `getById`, line 11. -/
def getById (db : InvDb) (i : Nat) : Option InvRecord :=
  db.find? (fun r => r._id == i && r.deleted == false)

/-- Patch the first record whose id matches; later records untouched
(Mongoose `findByIdAndUpdate` updates a single document). -/
def updateFirst (db : InvDb) (i : Nat) (patch : InvRecord → InvRecord) : InvDb :=
  match db with
  | [] => []
  | r :: rest =>
      if r._id == i then patch r :: rest else r :: updateFirst rest i patch

/-- `model.findByIdAndUpdate (_id, body, opts)` without `new: true`:
returns the pre-update document (or `none`) together with the updated
collection. -/
def findByIdAndUpdate (db : InvDb) (i : Nat) (patch : InvRecord → InvRecord) :
    Option InvRecord × InvDb :=
  (db.find? (fun r => r._id == i), updateFirst db i patch)

/-- `deleteById` — `findByIdAndUpdate (_id, \x7b deleted: true \x7d )`,
line 27 of `inventories/service.js`. -/
def deleteById (db : InvDb) (i : Nat) : Option InvRecord × InvDb :=
  findByIdAndUpdate db i (fun r => { r with deleted := true })

/-- `restoreById` — `findByIdAndUpdate (_id, \x7b deleted: false \x7d )`,
line 31. -/
def restoreById (db : InvDb) (i : Nat) : Option InvRecord × InvDb :=
  findByIdAndUpdate db i (fun r => { r with deleted := false })

/-- Remove the first record whose id matches. -/
def removeFirst (db : InvDb) (i : Nat) : InvDb :=
  match db with
  | [] => []
  | r :: rest => if r._id == i then rest else r :: removeFirst rest i

/-- `forceDelete` — `model.findByIdAndDelete (_id)`, line 35: returns the
deleted document (or `none`) and the collection without it. -/
def forceDelete (db : InvDb) (i : Nat) : Option InvRecord × InvDb :=
  (db.find? (fun r => r._id == i), removeFirst db i)

/-- Ids of a collection are pairwise distinct (MongoDB primary-key
uniqueness, assumed of every well-formed collection). -/
abbrev UniqueIds (db : InvDb) : Prop :=
  (db.map (fun r => r._id)).Nodup

/-- Generic first-match patch, shared by the Mongoose
`findByIdAndUpdate`/`findOneAndUpdate` embeddings. -/
def updateFirstBy {α : Type} (l : List α) (p : α → Bool) (f : α → α) : List α :=
  match l with
  | [] => []
  | x :: rest => if p x then f x :: rest else x :: updateFirstBy rest p f

/-- Generic first-match removal, shared by the `findByIdAndDelete`
embeddings. -/
def removeFirstBy {α : Type} (l : List α) (p : α → Bool) : List α :=
  match l with
  | [] => []
  | x :: rest => if p x then rest else x :: removeFirstBy rest p

/-! ## User data model and authentication state

Embedded from `src/routes/v1/users/controller.js`.  The modules it
imports that are not among the sources (`users/service.js`,
`middlewares/blacklist.js`, `middlewares/generateAccess.js`,
`utils/multipleImages.js`) are modelled from the spec, each marked so in
its doc comment. -/

/-- An image reference as returned by the image store:
`upload(files) -> [ \x7b public_id, url \x7d ]`. -/
structure Image where
  public_id : String
  url : String
deriving DecidableEq, Repr

/-- The `verificationCode` subdocument ` \x7b code, createdAt \x7d ` stored on a
user; `createdAt` is a millisecond timestamp. -/
structure VerificationCode where
  code : String
  createdAt : Nat
deriving DecidableEq, Repr

/-- A user record: id, unique email, hashed password, role, image
references, soft-delete flag, optional verification code. -/
structure User where
  _id : Nat
  email : String
  password : String
  role : String
  image : List Image
  deleted : Bool
  verificationCode : Option VerificationCode
deriving DecidableEq, Repr

/-- An issued access token, bound to ` \x7b userId, role \x7d `. -/
structure AccessToken where
  userId : Nat
  role : String
deriving DecidableEq, Repr

/-- Process-wide state: the user collection, the single-slot session
token, and the blacklist of invalidated tokens. -/
structure AuthState where
  users : List User
  sessionToken : Option AccessToken
  blacklist : List AccessToken
deriving DecidableEq, Repr

/-- Error outcomes of the handlers.  `notFound`, `unauthorized` and
`badRequest` carry the HTTP status used by `createError(STATUSCODE.*, msg)`
in the source; `rateLimited` and `expired` model the bare
`createError(msg)` calls that the spec's taxonomy names RateLimited and
Expired; `typeError` models a runtime null/undefined dereference crash,
which is not part of the spec's taxonomy. -/
inductive Err where
  | notFound (msg : String)
  | unauthorized (msg : String)
  | badRequest (msg : String)
  | rateLimited (msg : String)
  | expired (msg : String)
  | typeError (msg : String)
deriving DecidableEq, Repr

/-- User ids are pairwise distinct (MongoDB primary-key uniqueness). -/
abbrev UniqueUserIds (users : List User) : Prop :=
  (users.map (fun u => u._id)).Nodup

/-- Modelled from the spec: `users/service.js` is absent from the
sources.  `getEmail` — "looks up user by email", a Mongoose
`findOne` returning `null` when absent. -/
def getEmail (users : List User) (e : String) : Option User :=
  users.find? (fun u => u.email == e)

/-- Modelled from the spec: `middlewares/generateAccess.js` is absent.
"issues an access token bound to \x7b userId, role \x7d ". -/
def generateAccess (i : Nat) (role : String) : AccessToken :=
  { userId := i, role := role }

/-- Modelled from the spec: `middlewares/blacklist.js` is absent.
`setToken` stores the token as the current session token, "overwriting
any previous one". -/
def setToken (st : AuthState) (t : AccessToken) : AuthState :=
  { st with sessionToken := some t }

/-- Modelled from the spec: `getToken` reads the single session-token
slot. -/
def getToken (st : AuthState) : Option AccessToken :=
  st.sessionToken

/-- Modelled from the spec: `isTokenBlacklisted()` (no argument in the
source) — whether the currently stored token is in the blacklist. -/
def isTokenBlacklisted (st : AuthState) : Bool :=
  match st.sessionToken with
  | none => false
  | some t => st.blacklist.contains t

/-- Modelled from the spec: `blacklistToken()` "adds the current token
to the blacklist set". -/
def blacklistToken (st : AuthState) : AuthState :=
  match st.sessionToken with
  | none => st
  | some t => { st with blacklist := t :: st.blacklist }

/-- `loginUser` — controller lines 54–69.  `cmp pw hash` stands for
`bcrypt.compare(pw, hash)`.  On success the handler responds with the
user record and the access token, having stored the token. -/
def loginUser (cmp : String → String → Bool) (st : AuthState) (e pw : String) :
    Except Err (AuthState × User × AccessToken) :=
  match getEmail st.users e with
  | none => .error (.notFound "No User found")
  | some data =>
      if cmp pw data.password then
        let accessToken := generateAccess data._id data.role
        .ok (setToken st accessToken, data, accessToken)
      else
        .error (.unauthorized "Password does not match")

/-- `logoutUser` — controller lines 71–77: Unauthorized when no saved
token or the saved token is blacklisted; otherwise blacklist it. -/
def logoutUser (st : AuthState) : Except Err AuthState :=
  match getToken st with
  | none => .error (.unauthorized "You are not logged in")
  | some _ =>
      if isTokenBlacklisted st then
        .error (.unauthorized "You are not logged in")
      else
        .ok (blacklistToken st)

/-- Modelled from the spec: `service.sendEmailOTP` (absent
`users/service.js`) "stores \x7b code, createdAt \x7d on the user record",
overwriting any prior code. -/
def sendEmailOTPService (users : List User) (e code : String) (now : Nat) :
    List User :=
  updateFirstBy users (fun u => u.email == e)
    (fun u => { u with verificationCode := some { code := code, createdAt := now } })

/-- `sendUserEmailOTP` — controller lines 176–191.  `now` is the current
time in ms, `newCode` the value of `generateRandomCode()`.  The handler
reads `email.verificationCode.createdAt` without a null check, so a
missing user or a missing verification code crashes with a TypeError.
On success the result carries the new state and the dispatched mail
(recipient, code). -/
def sendUserEmailOTP (st : AuthState) (e : String) (now : Nat) (newCode : String) :
    Except Err (AuthState × String × String) :=
  match getEmail st.users e with
  | none => .error (.typeError "Cannot read properties of null")
  | some data =>
      match data.verificationCode with
      | none => .error (.typeError "Cannot read properties of undefined")
      | some vc =>
          if now - vc.createdAt < 5 * 60 * 1000 then
            .error (.rateLimited "Please wait 5 minutes before requesting a new verification code")
          else
            .ok ({ st with users := sendEmailOTPService st.users e newCode now }, e, newCode)

/-- Whether a user's stored verification code equals the submitted
code. -/
def matchesCode (u : User) (c : String) : Bool :=
  match u.verificationCode with
  | some vc => vc.code == c
  | none => false

/-- Modelled from the spec: `service.getCode` (absent
`users/service.js`) — find the user holding the submitted verification
code, a Mongoose `findOne` returning `null` when no user holds it. -/
def getCode (users : List User) (c : String) : Option User :=
  users.find? (fun u => matchesCode u c)

/-- Modelled from the spec: `service.resetPassword` (absent
`users/service.js`) "overwrites the user's password hash and clears the
code"; returns `null` when no user holds the code. -/
def resetPasswordService (hash : String → String) (users : List User)
    (c newPw : String) : Option User × List User :=
  match getCode users c with
  | none => (none, users)
  | some u =>
      (some { u with password := hash newPw, verificationCode := none },
       updateFirstBy users (fun v => matchesCode v c)
         (fun v => { v with password := hash newPw, verificationCode := none }))

/-- JavaScript falsiness of an optional request field: absent
(`undefined`) or the empty string. -/
def falsy : Option String → Bool
  | none => true
  | some s => s.isEmpty

/-- `resetUserEmailPassword` — controller lines 193–225.  Passwords are
optional request fields.  The handler dereferences
`code.verificationCode.createdAt` without a null check, so an unknown
code crashes with a TypeError before the `Invalid verification code`
BadRequest branch can run.  The expiry branch clears the stored code
(`code.verificationCode = null; code.save()`) before throwing, so the
state is returned alongside the outcome. -/
def resetUserEmailPassword (hash : String → String) (st : AuthState)
    (vcInput : String) (newPassword confirmPassword : Option String)
    (now : Nat) : AuthState × Except Err User :=
  if falsy newPassword || falsy confirmPassword || newPassword != confirmPassword then
    (st, .error (.badRequest "Passwords are required and must match"))
  else
    match getCode st.users vcInput with
    | none => (st, .error (.typeError "Cannot read properties of null"))
    | some code =>
        match code.verificationCode with
        | none => (st, .error (.typeError "Cannot read properties of null"))
        | some vc =>
            if now - vc.createdAt > 5 * 60 * 1000 then
              let cleared := updateFirstBy st.users (fun v => matchesCode v vcInput)
                (fun v => { v with verificationCode := none })
              ({ st with users := cleared },
               .error (.expired "Verification code has expired"))
            else
              match resetPasswordService hash st.users vcInput (newPassword.getD "") with
              | (none, users2) =>
                  ({ st with users := users2 },
                   .error (.badRequest "Invalid verification code"))
              | (some data, users2) =>
                  ({ st with users := users2 }, .ok data)

/-- Modelled from the spec: `utils/multipleImages.js` is absent.
`multipleImages(files, oldPublicIds)` uploads the files through the
image store and asks it to delete the given public ids
(`delete(public_ids)`).  `uploadFn` abstracts the store's upload; the
second component records exactly the public ids passed to the store's
delete. -/
def multipleImages (uploadFn : List String → List Image)
    (files : List String) (oldIds : List String) : List Image × List String :=
  (uploadFn files, oldIds)

/-- Modelled from the spec: `service.getById` of the absent
`users/service.js`, with the same shape as `getById` of
`inventories/service.js` (in the sources): matching id and
`deleted: false`. -/
def getByIdUser (users : List User) (i : Nat) : Option User :=
  users.find? (fun u => u._id == i && u.deleted == false)

/-- Modelled from the spec: `service.update` of the absent
`users/service.js`, with the same shape as `update` of
`inventories/service.js`: `findByIdAndUpdate` with `new: true`, so it
returns the post-update document (or `null`). -/
def updateUserService (users : List User) (i : Nat) (patch : User → User) :
    Option User × List User :=
  ((users.find? (fun u => u._id == i)).map patch,
   updateFirstBy users (fun u => u._id == i) patch)

/-- Modelled from the spec: `service.forceDelete` of the absent
`users/service.js`, with the same shape as `forceDelete` of
`inventories/service.js`: `findByIdAndDelete`. -/
def forceDeleteUserService (users : List User) (i : Nat) :
    Option User × List User :=
  (users.find? (fun u => u._id == i), removeFirstBy users (fun u => u._id == i))

/-- `updateUser` — controller lines 101–125.  `patchBody` stands for the
spread of `req.body`; the handler then overrides `image`: with uploaded
files it uploads them and deletes the old public ids, with zero files it
keeps `oldData.image` (crashing on `null` when the lookup found no
active user).  Result: new state, public ids passed to the image-store
delete, and the handler outcome (`service.update` result, which is
`null` for a missing id). -/
def updateUser (uploadFn : List String → List Image) (st : AuthState)
    (i : Nat) (patchBody : User → User) (files : List String) :
    AuthState × List String × Except Err (Option User) :=
  let oldData := getByIdUser st.users i
  if files.length > 0 then
    let oldIds := match oldData with
      | some od => od.image.map (fun im => im.public_id)
      | none => []
    let up := multipleImages uploadFn files oldIds
    let res := updateUserService st.users i
      (fun u => { patchBody u with image := up.fst })
    ({ st with users := res.snd }, up.snd, .ok res.fst)
  else
    match oldData with
    | none => (st, [], .error (.typeError "Cannot read properties of null"))
    | some od =>
        let res := updateUserService st.users i
          (fun u => { patchBody u with image := od.image })
        ({ st with users := res.snd }, [], .ok res.fst)

/-- `forceDeleteUser` — controller lines 147–158: hard-delete the user,
then call `multipleImages([], publicIds)` with the deleted record's
image public ids (`[]` when nothing was found).  Result: new state,
public ids passed to the image-store delete, and the deleted record. -/
def forceDeleteUser (uploadFn : List String → List Image) (st : AuthState)
    (i : Nat) : AuthState × List String × Option User :=
  let res := forceDeleteUserService st.users i
  let oldIds := match res.fst with
    | some d => d.image.map (fun im => im.public_id)
    | none => []
  let up := multipleImages uploadFn [] oldIds
  ({ st with users := res.snd }, up.snd, res.fst)

/-! ## Concrete fixtures used by witnesses and counterexamples -/

/-- A sample active inventory record. -/
def invActive : InvRecord := { _id := 1, fields := "a", deleted := false }

/-- A sample soft-deleted inventory record. -/
def invDeleted : InvRecord := { _id := 1, fields := "a", deleted := true }

/-- A sample image reference. -/
def img1 : Image := { public_id := "p1", url := "u1" }

/-- A sample active user with one image and no verification code. -/
def userNoCode : User :=
  { _id := 1, email := "a@b.c", password := "hashed-secret", role := "admin",
    image := [img1], deleted := false, verificationCode := none }

/-- The same user with a verification code issued at time 0. -/
def userWithCode : User :=
  { userNoCode with verificationCode := some { code := "111111", createdAt := 0 } }

/-- Auth state holding only `userNoCode`. -/
def stNoCode : AuthState :=
  { users := [userNoCode], sessionToken := none, blacklist := [] }

/-- Auth state holding only `userWithCode`. -/
def stWithCode : AuthState :=
  { users := [userWithCode], sessionToken := none, blacklist := [] }

/-- Auth state with no users at all. -/
def stEmpty : AuthState :=
  { users := [], sessionToken := none, blacklist := [] }

/-- A sample access token. -/
def tok1 : AccessToken := { userId := 1, role := "admin" }

/-- Auth state logged in with `tok1` and an empty blacklist. -/
def stLoggedIn : AuthState :=
  { users := [userNoCode], sessionToken := some tok1, blacklist := [] }

/-- Plain string equality standing in for `bcrypt.compare` in concrete
examples: a match means the submitted password equals the stored
hash. -/
def cmpEq : String → String → Bool := fun p h => p == h

/-- A trivial upload function for concrete examples. -/
def uploadNone : List String → List Image := fun _ => []

/-! ## Helper lemmas -/

theorem find?_key_of_mem {α : Type} (key : α → Nat) (l : List α) (r : α)
    (hnd : (l.map key).Nodup) (hr : r ∈ l) :
    l.find? (fun x => key x == key r) = some r := by
  induction l with
  | nil => cases hr
  | cons x rest ih =>
      simp only [List.map_cons, List.nodup_cons] at hnd
      rcases List.mem_cons.mp hr with h | h
      · subst h
        simp
      · by_cases hx : key x = key r
        · exact absurd (hx ▸ List.mem_map.mpr ⟨r, h, rfl⟩) hnd.1
        · rw [List.find?_cons_of_neg _ (by simpa using hx)]
          exact ih hnd.2 h

theorem eq_of_mem_of_key_eq {α : Type} (key : α → Nat) (l : List α) (r s : α)
    (hnd : (l.map key).Nodup) (hr : r ∈ l) (hs : s ∈ l) (h : key r = key s) :
    r = s := by
  induction l with
  | nil => cases hr
  | cons x rest ih =>
      simp only [List.map_cons, List.nodup_cons] at hnd
      rcases List.mem_cons.mp hr with h1 | h1 <;>
        rcases List.mem_cons.mp hs with h2 | h2
      · rw [h1, h2]
      · subst h1
        exact absurd (h ▸ List.mem_map.mpr ⟨s, h2, rfl⟩) hnd.1
      · subst h2
        exact absurd (h ▸ List.mem_map.mpr ⟨r, h1, rfl⟩) hnd.1
      · exact ih hnd.2 h1 h2

theorem updateFirstBy_key_eq_map {α : Type} (key : α → Nat) (l : List α)
    (i : Nat) (f : α → α) (hnd : (l.map key).Nodup) :
    updateFirstBy l (fun x => key x == i) f =
      l.map (fun x => if key x == i then f x else x) := by
  induction l with
  | nil => rfl
  | cons x rest ih =>
      simp only [List.map_cons, List.nodup_cons] at hnd
      by_cases hx : key x = i
      · have hrest : ∀ y ∈ rest, (if key y == i then f y else y) = y := by
          intro y hy
          have hne : ¬ key y = i := by
            intro h2
            exact hnd.1 (by rw [hx, ← h2]; exact List.mem_map.mpr ⟨y, hy, rfl⟩)
          simp [hne]
        have hxb : (key x == i) = true := by simpa using hx
        simp only [updateFirstBy, List.map_cons, hxb, if_true]
        rw [List.map_congr_left hrest, List.map_id']
      · have hxb : (key x == i) = false := by simpa using hx
        simp [updateFirstBy, hxb, ih hnd.2, hx]

theorem updateFirstBy_idem {α : Type} (l : List α) (p : α → Bool) (f : α → α)
    (hp : ∀ x, p (f x) = p x) (hf : ∀ x, f (f x) = f x) :
    updateFirstBy (updateFirstBy l p f) p f = updateFirstBy l p f := by
  induction l with
  | nil => rfl
  | cons x rest ih =>
      by_cases hx : p x
      · simp [updateFirstBy, hx, hp x, hf x]
      · simp [updateFirstBy, hx, ih]

theorem find?_updateFirstBy {α : Type} (l : List α) (p : α → Bool) (f : α → α)
    (u : α) (hfind : l.find? p = some u) (hp : ∀ x, p (f x) = p x) :
    (updateFirstBy l p f).find? p = some (f u) := by
  induction l with
  | nil => cases hfind
  | cons x rest ih =>
      by_cases hx : p x
      · rw [List.find?_cons_of_pos _ hx] at hfind
        injection hfind with h
        subst h
        simp [updateFirstBy, hx, List.find?_cons_of_pos, hp x]
      · rw [List.find?_cons_of_neg _ (by simpa using hx)] at hfind
        simp only [updateFirstBy, if_neg hx]
        rw [List.find?_cons_of_neg _ (by simpa using hx)]
        exact ih hfind

theorem mem_removeFirstBy_key {α : Type} (key : α → Nat) (l : List α) (i : Nat)
    (hnd : (l.map key).Nodup) :
    ∀ s ∈ removeFirstBy l (fun x => key x == i), key s ≠ i := by
  induction l with
  | nil => intro s hs; cases hs
  | cons x rest ih =>
      simp only [List.map_cons, List.nodup_cons] at hnd
      intro s hs
      by_cases hx : key x = i
      · rw [removeFirstBy, if_pos (by simpa using hx)] at hs
        intro h
        exact hnd.1 (by rw [hx, ← h]; exact List.mem_map.mpr ⟨s, hs, rfl⟩)
      · rw [removeFirstBy, if_neg (by simpa using hx)] at hs
        rcases List.mem_cons.mp hs with h | h
        · subst h; exact hx
        · exact ih hnd.2 s h

theorem updateFirst_eq (db : InvDb) (i : Nat) (f : InvRecord → InvRecord) :
    updateFirst db i f = updateFirstBy db (fun x => x._id == i) f := by
  induction db with
  | nil => rfl
  | cons x rest ih => simp [updateFirst, updateFirstBy, ih]

theorem removeFirst_eq (db : InvDb) (i : Nat) :
    removeFirst db i = removeFirstBy db (fun x => x._id == i) := by
  induction db with
  | nil => rfl
  | cons x rest ih => simp [removeFirst, removeFirstBy, ih]

/-! ## Claim C1 -/

/-- C1: every record whose soft-delete flag is true is excluded from the
default listing `getAll` and lookup `getById`, while `restoreById` and
`forceDelete` still address it by id: both find it without requiring
`deleted = false`. -/
theorem C1_soft_delete_invariant (db : InvDb) (r : InvRecord)
    (hu : UniqueIds db) (hr : r ∈ db) (hd : r.deleted = true) :
    r ∉ getAll db ∧
    getById db r._id = none ∧
    (restoreById db r._id).fst = some r ∧
    (forceDelete db r._id).fst = some r := by
  refine ⟨?_, ?_, ?_, ?_⟩
  · intro hmem
    rw [getAll, List.mem_filter] at hmem
    simp [hd] at hmem
  · apply List.find?_eq_none.mpr
    intro s hs hps
    simp only [Bool.and_eq_true, beq_iff_eq] at hps
    have hsr : s = r := eq_of_mem_of_key_eq (fun x => x._id) db s r hu hs hr hps.1
    rw [hsr, hd] at hps
    simp at hps
  · show db.find? (fun x => x._id == r._id) = some r
    exact find?_key_of_mem (fun x => x._id) db r hu hr
  · show db.find? (fun x => x._id == r._id) = some r
    exact find?_key_of_mem (fun x => x._id) db r hu hr

/-- C1 witness: the invariant instantiated at a concrete one-record
collection holding a soft-deleted record. -/
theorem C1_soft_delete_invariant_witness :
    UniqueIds [invDeleted] ∧ invDeleted ∈ [invDeleted] ∧ invDeleted.deleted = true ∧
    (invDeleted ∉ getAll [invDeleted] ∧
     getById [invDeleted] invDeleted._id = none ∧
     (restoreById [invDeleted] invDeleted._id).fst = some invDeleted ∧
     (forceDelete [invDeleted] invDeleted._id).fst = some invDeleted) :=
  ⟨by decide, by decide, by decide,
   C1_soft_delete_invariant [invDeleted] invDeleted (by decide) (by decide) (by decide)⟩

/-! ## Claim C2 -/

/-- C2: `loginUser` fails NotFound when no user has the email, fails
Unauthorized when the password comparison fails, and otherwise issues an
access token bound to the user's id and role and stores it as the
current session token, replacing any previously stored one. -/
theorem C2_login_spec (cmp : String → String → Bool) (st : AuthState)
    (e pw : String) :
    (getEmail st.users e = none →
      loginUser cmp st e pw = .error (.notFound "No User found")) ∧
    (∀ u, getEmail st.users e = some u → cmp pw u.password = false →
      loginUser cmp st e pw = .error (.unauthorized "Password does not match")) ∧
    (∀ u, getEmail st.users e = some u → cmp pw u.password = true →
      loginUser cmp st e pw =
        .ok ({ st with sessionToken := some (generateAccess u._id u.role) },
             u, generateAccess u._id u.role)) := by
  refine ⟨?_, ?_, ?_⟩
  · intro h
    simp [loginUser, h]
  · intro u hu hc
    simp [loginUser, hu, hc]
  · intro u hu hc
    simp [loginUser, hu, hc, setToken]

/-- C2 witness: a successful login at a concrete state replaces a
previously stored token with one bound to the user's id and role. -/
theorem C2_login_spec_witness :
    getEmail stLoggedIn.users "a@b.c" = some userNoCode ∧
    cmpEq "hashed-secret" userNoCode.password = true ∧
    loginUser cmpEq stLoggedIn "a@b.c" "hashed-secret" =
      .ok ({ stLoggedIn with
              sessionToken := some (generateAccess userNoCode._id userNoCode.role) },
           userNoCode, generateAccess userNoCode._id userNoCode.role) :=
  ⟨by decide, by decide,
   (C2_login_spec cmpEq stLoggedIn "a@b.c" "hashed-secret").2.2 userNoCode
     (by decide) (by decide)⟩

/-! ## Claim C3 -/

/-- C3: `logoutUser` fails Unauthorized exactly when no session token is
stored or the stored token is already blacklisted; otherwise it adds the
stored token to the blacklist and leaves the token slot unchanged. -/
theorem C3_logout_spec (st : AuthState) :
    ((st.sessionToken = none ∨ isTokenBlacklisted st = true) →
      logoutUser st = .error (.unauthorized "You are not logged in")) ∧
    (logoutUser st = .error (.unauthorized "You are not logged in") →
      st.sessionToken = none ∨ isTokenBlacklisted st = true) ∧
    (∀ t, st.sessionToken = some t → st.blacklist.contains t = false →
      logoutUser st = .ok { st with blacklist := t :: st.blacklist }) := by
  refine ⟨?_, ?_, ?_⟩
  · rintro (h | h)
    · simp [logoutUser, getToken, h]
    · rcases hst : st.sessionToken with _ | t
      · simp [logoutUser, getToken, hst]
      · simp [logoutUser, getToken, hst, h]
  · intro h
    rcases hst : st.sessionToken with _ | t
    · exact Or.inl rfl
    · right
      by_contra hb
      rw [logoutUser, getToken, hst] at h
      simp [Bool.not_eq_true] at hb
      rw [if_neg (by simp [hb])] at h
      cases h
  · intro t ht hb
    have hnb : isTokenBlacklisted st = false := by
      simp only [isTokenBlacklisted, ht]
      simpa using hb
    simp [logoutUser, getToken, ht, hnb, blacklistToken]

/-- C3 witness: logging out from a concrete logged-in state with an
empty blacklist succeeds and blacklists the stored token. -/
theorem C3_logout_spec_witness :
    stLoggedIn.sessionToken = some tok1 ∧
    stLoggedIn.blacklist.contains tok1 = false ∧
    logoutUser stLoggedIn = .ok { stLoggedIn with blacklist := [tok1] } :=
  ⟨by decide, by decide,
   (C3_logout_spec stLoggedIn).2.2 tok1 (by decide) (by decide)⟩

/-! ## Claim C4 -/

/-- C4 (code bug): submitting matching passwords with a verification
code that no user holds makes the handler dereference the null `getCode`
result (`code.verificationCode.createdAt`) and crash with a TypeError,
never reaching its own `Invalid verification code` BadRequest branch. -/
theorem C4_reset_unknown_code_crashes :
    resetUserEmailPassword (fun s => s) stNoCode "123456" (some "pw") (some "pw") 0 =
      (stNoCode, .error (.typeError "Cannot read properties of null")) ∧
    Err.typeError "Cannot read properties of null" ≠
      Err.badRequest "Invalid verification code" :=
  ⟨rfl, by decide⟩

/-! ## Claim C5 -/

/-- C5 counterexample: a first-ever OTP request — the user exists but
has no prior `verificationCode`, so no OTP was issued within the last 5
minutes — neither succeeds nor fails RateLimited: it crashes with a
TypeError. -/
theorem C5_counterexample_first_otp_crashes :
    sendUserEmailOTP stNoCode "a@b.c" 1000000000 "222222" =
      .error (.typeError "Cannot read properties of undefined") ∧
    (sendUserEmailOTP stNoCode "a@b.c" 1000000000 "222222").isOk = false :=
  ⟨rfl, rfl⟩

/-- C5 amended: for a request whose user exists and holds a prior
`verificationCode`, issuance within the last 5 minutes fails
RateLimited; otherwise the handler stores the fresh code with the
current timestamp (overwriting the prior one) and dispatches it to the
user's email. -/
theorem C5_requestOtp_amended (st : AuthState) (e : String) (now : Nat)
    (c : String) (u : User) (vc : VerificationCode)
    (hu : getEmail st.users e = some u) (hvc : u.verificationCode = some vc) :
    (now - vc.createdAt < 5 * 60 * 1000 →
      sendUserEmailOTP st e now c =
        .error (.rateLimited "Please wait 5 minutes before requesting a new verification code")) ∧
    (¬ now - vc.createdAt < 5 * 60 * 1000 →
      sendUserEmailOTP st e now c =
        .ok ({ st with users := sendEmailOTPService st.users e c now }, e, c) ∧
      getEmail (sendEmailOTPService st.users e c now) e =
        some { u with verificationCode := some { code := c, createdAt := now } }) := by
  refine ⟨?_, ?_⟩
  · intro h
    simp [sendUserEmailOTP, hu, hvc, h]
  · intro h
    refine ⟨by simp [sendUserEmailOTP, hu, hvc, h], ?_⟩
    have hfind := find?_updateFirstBy st.users (fun v => v.email == e)
      (fun v => { v with verificationCode := some { code := c, createdAt := now } })
      u hu (fun x => rfl)
    simpa [getEmail, sendEmailOTPService] using hfind

/-- C5 amended witness: a second request 10 minutes after issuance
succeeds and overwrites the stored code. -/
theorem C5_requestOtp_amended_witness :
    getEmail stWithCode.users "a@b.c" = some userWithCode ∧
    userWithCode.verificationCode = some { code := "111111", createdAt := 0 } ∧
    (sendUserEmailOTP stWithCode "a@b.c" 600000 "222222" =
        .ok ({ stWithCode with
                users := sendEmailOTPService stWithCode.users "a@b.c" "222222" 600000 },
             "a@b.c", "222222") ∧
      getEmail (sendEmailOTPService stWithCode.users "a@b.c" "222222" 600000) "a@b.c" =
        some { userWithCode with
                verificationCode := some { code := "222222", createdAt := 600000 } }) :=
  ⟨by decide, by decide,
   (C5_requestOtp_amended stWithCode "a@b.c" 600000 "222222" userWithCode
      { code := "111111", createdAt := 0 } (by decide) (by decide)).2 (by decide)⟩

/-! ## Claim C10 -/

/-- C10: when the email lookup returns no user, or the user has no
stored `verificationCode`, the OTP handler dereferences null/undefined
reading `verificationCode.createdAt` and fails with a runtime TypeError
rather than NotFound or RateLimited. -/
theorem C10_otp_null_crash (st : AuthState) (e : String) (now : Nat) (c : String) :
    (getEmail st.users e = none →
      sendUserEmailOTP st e now c = .error (.typeError "Cannot read properties of null")) ∧
    (∀ u, getEmail st.users e = some u → u.verificationCode = none →
      sendUserEmailOTP st e now c =
        .error (.typeError "Cannot read properties of undefined")) := by
  refine ⟨?_, ?_⟩
  · intro h
    simp [sendUserEmailOTP, h]
  · intro u hu hvc
    simp [sendUserEmailOTP, hu, hvc]

/-- C10 witness: the crash at a state with no matching user, and at a
user whose first OTP was never issued. -/
theorem C10_otp_null_crash_witness :
    (getEmail stEmpty.users "a@b.c" = none ∧
     sendUserEmailOTP stEmpty "a@b.c" 0 "1" =
       .error (.typeError "Cannot read properties of null")) ∧
    (getEmail stNoCode.users "a@b.c" = some userNoCode ∧
     userNoCode.verificationCode = none ∧
     sendUserEmailOTP stNoCode "a@b.c" 0 "1" =
       .error (.typeError "Cannot read properties of undefined")) :=
  ⟨⟨by decide, (C10_otp_null_crash stEmpty "a@b.c" 0 "1").1 (by decide)⟩,
   ⟨by decide, by decide,
    (C10_otp_null_crash stNoCode "a@b.c" 0 "1").2 userNoCode (by decide) (by decide)⟩⟩

/-! ## Claim C6 -/

/-- C6 counterexample: on a record that is already soft-deleted,
`deleteById` followed by `restoreById` does not restore the state before
the soft delete — the record comes back with `deleted = false`. -/
theorem C6_counterexample_restore_already_deleted :
    (restoreById (deleteById [invDeleted] 1).snd 1).snd ≠ [invDeleted] := by
  decide

/-- C6 amended: `deleteById` and `restoreById` are idempotent on the
collection state, and for every existing record whose soft-delete flag
is false, after `deleteById` the active listing excludes its id while
the deleted listing includes the flagged record, and a subsequent
`restoreById` restores exactly the collection before the soft
delete. -/
theorem C6_soft_delete_lifecycle_amended (db : InvDb) (i : Nat) (r : InvRecord)
    (hu : UniqueIds db) (hr : r ∈ db) (hid : r._id = i) (hd : r.deleted = false) :
    (deleteById (deleteById db i).snd i).snd = (deleteById db i).snd ∧
    (restoreById (restoreById db i).snd i).snd = (restoreById db i).snd ∧
    (∀ s ∈ getAll (deleteById db i).snd, s._id ≠ i) ∧
    { r with deleted := true } ∈ getAllDeleted (deleteById db i).snd ∧
    (restoreById (deleteById db i).snd i).snd = db := by
  have hdel : (deleteById db i).snd =
      db.map (fun x => if x._id == i then { x with deleted := true } else x) := by
    show updateFirst db i _ = _
    rw [updateFirst_eq, updateFirstBy_key_eq_map (fun x => x._id) db i _ hu]
  refine ⟨?_, ?_, ?_, ?_, ?_⟩
  · show updateFirst (updateFirst db i (fun x => { x with deleted := true })) i
        (fun x => { x with deleted := true }) =
      updateFirst db i (fun x => { x with deleted := true })
    rw [updateFirst_eq, updateFirst_eq]
    exact updateFirstBy_idem _ _ _ (fun x => rfl) (fun x => rfl)
  · show updateFirst (updateFirst db i (fun x => { x with deleted := false })) i
        (fun x => { x with deleted := false }) =
      updateFirst db i (fun x => { x with deleted := false })
    rw [updateFirst_eq, updateFirst_eq]
    exact updateFirstBy_idem _ _ _ (fun x => rfl) (fun x => rfl)
  · intro s hs
    rw [getAll, List.mem_filter, hdel] at hs
    obtain ⟨t, ht, rfl⟩ := List.mem_map.mp hs.1
    by_cases hti : t._id = i
    · exfalso
      have := hs.2
      simp [hti] at this
    · intro habs
      apply hti
      simpa [hti] using habs
  · rw [getAllDeleted, List.mem_filter, hdel]
    constructor
    · exact List.mem_map.mpr ⟨r, hr, by simp [hid]⟩
    · simp
  · have hid2 : (db.map (fun x => if x._id == i then { x with deleted := true } else x)).map
        (fun x => x._id) = db.map (fun x => x._id) := by
      rw [List.map_map]
      apply List.map_congr_left
      intro t ht
      by_cases hti : t._id = i <;> simp [hti]
    have hu2 : ((deleteById db i).snd.map (fun x => x._id)).Nodup := by
      rw [hdel, hid2]
      exact hu
    show updateFirst _ i _ = db
    rw [updateFirst_eq,
      updateFirstBy_key_eq_map (fun x => x._id) ((deleteById db i).snd) i _ hu2,
      hdel, List.map_map]
    have hpt : ∀ t ∈ db,
        ((fun x => if x._id == i then { x with deleted := false } else x) ∘
         (fun x => if x._id == i then { x with deleted := true } else x)) t = t := by
      intro t ht
      by_cases hti : t._id = i
      · have htr : t = r :=
          eq_of_mem_of_key_eq (fun x => x._id) db t r hu ht hr
            (by show t._id = r._id; rw [hti, hid])
        subst htr
        obtain ⟨a, b, c⟩ := t
        simp_all
      · simp [hti]
    rw [List.map_congr_left hpt, List.map_id']

/-- C6 amended witness: the lifecycle at a concrete one-record active
collection. -/
theorem C6_soft_delete_lifecycle_amended_witness :
    UniqueIds [invActive] ∧ invActive ∈ [invActive] ∧ invActive.deleted = false ∧
    (restoreById (deleteById [invActive] 1).snd 1).snd = [invActive] :=
  ⟨by decide, by decide, by decide,
   (C6_soft_delete_lifecycle_amended [invActive] 1 invActive
      (by decide) (by decide) rfl rfl).2.2.2.2⟩

/-! ## Claim C7 -/

/-- C7: after `forceDelete i`, no lookup sees id `i`: the active
listing, the deleted listing and `getById` all miss it. -/
theorem C7_hard_delete_absence (db : InvDb) (i : Nat) (hu : UniqueIds db) :
    (∀ s ∈ getAll (forceDelete db i).snd, s._id ≠ i) ∧
    (∀ s ∈ getAllDeleted (forceDelete db i).snd, s._id ≠ i) ∧
    getById (forceDelete db i).snd i = none := by
  have hkey : ∀ s ∈ removeFirstBy db (fun x => x._id == i), s._id ≠ i :=
    mem_removeFirstBy_key (fun x => x._id) db i hu
  have hsnd : (forceDelete db i).snd = removeFirstBy db (fun x => x._id == i) :=
    removeFirst_eq db i
  refine ⟨?_, ?_, ?_⟩
  · intro s hs
    exact hkey s (hsnd ▸ List.mem_of_mem_filter hs)
  · intro s hs
    exact hkey s (hsnd ▸ List.mem_of_mem_filter hs)
  · apply List.find?_eq_none.mpr
    intro s hs hps
    simp only [Bool.and_eq_true, beq_iff_eq] at hps
    exact hkey s (hsnd ▸ hs) hps.1

/-- C7 witness: hard-deleting the only record of a concrete collection
removes it from every lookup. -/
theorem C7_hard_delete_absence_witness :
    UniqueIds [invActive] ∧
    getAll (forceDelete [invActive] 1).snd = [] ∧
    getAllDeleted (forceDelete [invActive] 1).snd = [] ∧
    getById (forceDelete [invActive] 1).snd 1 = none :=
  ⟨by decide, by decide, by decide,
   (C7_hard_delete_absence [invActive] 1 (by decide)).2.2⟩

/-! ## Claim C8 -/

/-- C8 counterexample: two login attempts differing only in whether the
email is registered produce distinguishable failures — Unauthorized with
one message for a wrong password, NotFound with another for an unknown
email — so login does leak whether the email exists. -/
theorem C8_counterexample_login_leaks_existence :
    loginUser cmpEq stNoCode "a@b.c" "wrong" =
      .error (.unauthorized "Password does not match") ∧
    loginUser cmpEq stEmpty "a@b.c" "wrong" =
      .error (.notFound "No User found") ∧
    Err.unauthorized "Password does not match" ≠ Err.notFound "No User found" :=
  ⟨rfl, rfl, by decide⟩

/-- C8 amended: a wrong password against an existing email always fails
Unauthorized, but the failure is distinguishable from the NotFound
failure produced for a non-existent email: login leaks whether the email
is registered. -/
theorem C8_login_errors_amended (cmp : String → String → Bool)
    (st : AuthState) (e pw : String) :
    (∀ u, getEmail st.users e = some u → cmp pw u.password = false →
      loginUser cmp st e pw = .error (.unauthorized "Password does not match")) ∧
    (getEmail st.users e = none →
      loginUser cmp st e pw = .error (.notFound "No User found")) ∧
    Err.unauthorized "Password does not match" ≠ Err.notFound "No User found" := by
  refine ⟨?_, ?_, by decide⟩
  · intro u hu hc
    simp [loginUser, hu, hc]
  · intro h
    simp [loginUser, h]

/-- C8 amended witness: the two distinguishable failures at concrete
states differing only in the presence of the user. -/
theorem C8_login_errors_amended_witness :
    getEmail stNoCode.users "a@b.c" = some userNoCode ∧
    cmpEq "wrong" userNoCode.password = false ∧
    loginUser cmpEq stNoCode "a@b.c" "wrong" =
      .error (.unauthorized "Password does not match") ∧
    loginUser cmpEq stEmpty "a@b.c" "wrong" =
      .error (.notFound "No User found") :=
  ⟨by decide, by decide,
   (C8_login_errors_amended cmpEq stNoCode "a@b.c" "wrong").1 userNoCode
     (by decide) (by decide),
   (C8_login_errors_amended cmpEq stEmpty "a@b.c" "wrong").2.1 (by decide)⟩

/-! ## Claim C9 -/

/-- C9: an update request carrying zero new image files on an existing
active user leaves the stored image references unchanged (`req.body`
cannot override them: the handler writes `image` after spreading the
body, and Mongoose keeps `_id` immutable, whence the hypothesis on
`patchBody`); and force-delete passes to the image-store delete exactly
the public ids stored on the deleted record. -/
theorem C9_image_frame (uploadFn : List String → List Image) (st : AuthState)
    (i : Nat) (hu : UniqueUserIds st.users) :
    (∀ u patchBody, (∀ v, (patchBody v)._id = v._id) →
      getByIdUser st.users i = some u →
      ∀ w, (updateUser uploadFn st i patchBody []).fst.users.find?
          (fun v => v._id == i) = some w → w.image = u.image) ∧
    (∀ r, r ∈ st.users → r._id = i →
      (forceDeleteUser uploadFn st i).snd.fst =
        r.image.map (fun im => im.public_id)) := by
  constructor
  · intro u patchBody hpb hfound w hw
    have hmem : u ∈ st.users := List.mem_of_find?_eq_some hfound
    have hui : u._id = i := by
      have := List.find?_some hfound
      simp only [Bool.and_eq_true, beq_iff_eq] at this
      exact this.1
    have hfind : st.users.find? (fun v => v._id == i) = some u := by
      have h2 : st.users.find? (fun v => v._id == u._id) = some u :=
        find?_key_of_mem (fun x => x._id) st.users u hu hmem
      rw [hui] at h2
      exact h2
    have hstate : (updateUser uploadFn st i patchBody []).fst.users =
        updateFirstBy st.users (fun v => v._id == i)
          (fun v => { patchBody v with image := u.image }) := by
      simp [updateUser, hfound, updateUserService]
    rw [hstate, find?_updateFirstBy st.users (fun v => v._id == i)
        (fun v => { patchBody v with image := u.image }) u hfind
        (fun x => by show ((patchBody x)._id == i) = (x._id == i); rw [hpb x])] at hw
    injection hw with hw
    rw [← hw]
  · intro r hr hid
    have hfind : st.users.find? (fun v => v._id == i) = some r := by
      have h2 : st.users.find? (fun v => v._id == r._id) = some r :=
        find?_key_of_mem (fun x => x._id) st.users r hu hr
      rw [hid] at h2
      exact h2
    simp [forceDeleteUser, forceDeleteUserService, multipleImages, hfind]

/-- C9 witness: a concrete user with one image keeps it across a
zero-file update, and force-delete passes exactly its public id to the
image store. -/
theorem C9_image_frame_witness :
    UniqueUserIds stNoCode.users ∧
    getByIdUser stNoCode.users 1 = some userNoCode ∧
    ({ userNoCode with role := "user" } : User).image = userNoCode.image ∧
    (forceDeleteUser uploadNone stNoCode 1).snd.fst =
      userNoCode.image.map (fun im => im.public_id) :=
  ⟨by decide, by decide,
   (C9_image_frame uploadNone stNoCode 1 (by decide)).1 userNoCode
     (fun v => { v with role := "user" }) (fun v => rfl) (by decide)
     { userNoCode with role := "user" } rfl,
   (C9_image_frame uploadNone stNoCode 1 (by decide)).2 userNoCode
     (by decide) (by decide)⟩

end Spec2Proof
